import Mathlib

/-!
Verification of the actions-runner-controller autoscaling core against its
specification.  The development shallowly embeds:

* the RunnerReplicaSet admission-validation webhook and the controller
  GitHub-API cache-duration computation of the bootstrap, translated directly from
  the Go source in the repository; and
* the HorizontalRunnerAutoscaler desired-replica computation and the webhook
  trigger matching of the receiver, whose Go source is not part of the provided
  tree (only the integration test exercising them is); those definitions are
  modelled from the specification and are marked as such in their doc
  comments.

Times and durations are modelled as integer seconds; replica counts as
integers.
-/

namespace ARC

/-- A workflow run as listed by the Provider, carrying only the field the
autoscaling metric consumes (its status string), mirroring the JSON fixtures
of the integration test. -/
structure WorkflowRun where
  runStatus : String
deriving DecidableEq, Repr

/-- The fake Provider workflow-runs endpoint of the integration test
(`fake.Handler` with a `Body` and a `Statuses` map): a listing filtered by a
status string is served from the `Statuses` map, an unfiltered listing from
`Body`. -/
structure WorkflowRunsHandler where
  body : List WorkflowRun
  statuses : List (String × List WorkflowRun)
deriving Repr

/-- Listing workflow runs against the fake handler: a status-filtered request
is answered from the `statuses` map (falling back to the unfiltered body when
the status has no entry), an unfiltered request from `body`. -/
def WorkflowRunsHandler.list (h : WorkflowRunsHandler) (status : Option String) :
    List WorkflowRun :=
  match status with
  | none => h.body
  | some s =>
    match h.statuses.lookup s with
    | some runs => runs
    | none => h.body

/-- The `workflowRunsFor3Replicas` JSON fixture of the integration test:
five workflow runs, of which two are `queued`, two are `in_progress` and one
is `completed`. -/
def workflowRunsFor3Replicas : List WorkflowRun :=
  [⟨"queued"⟩, ⟨"queued"⟩, ⟨"in_progress"⟩, ⟨"in_progress"⟩, ⟨"completed"⟩]

/-- The `workflowRunsFor3Replicas_queued` fixture: two queued runs. -/
def workflowRunsFor3Replicas_queued : List WorkflowRun :=
  [⟨"queued"⟩, ⟨"queued"⟩]

/-- The `workflowRunsFor3Replicas_in_progress` fixture: one in-progress run. -/
def workflowRunsFor3Replicas_in_progress : List WorkflowRun :=
  [⟨"in_progress"⟩]

/-- The fake Provider response used by `SetupIntegrationTest`:
`ListRepositoryWorkflowRuns` serves `workflowRunsFor3Replicas` as the body and
the two per-status fixtures under the `queued` and `in_progress` keys. -/
def for3ReplicasHandler : WorkflowRunsHandler :=
  { body := workflowRunsFor3Replicas
    statuses :=
      [("queued", workflowRunsFor3Replicas_queued),
       ("in_progress", workflowRunsFor3Replicas_in_progress)] }

/-- Modelled from the spec: the `TotalNumberOfQueuedAndInProgressWorkflowRuns`
metric (the HRA reconciler source is not in the provided tree).  The
reconciler lists workflow runs in statuses `queued` and `in_progress` and
takes `metricReplicas := count`, i.e. the number of runs in the queued
listing plus the number in the in-progress listing. -/
def totalQueuedAndInProgressMetric (queuedRuns inProgressRuns : List WorkflowRun) : Int :=
  (queuedRuns.length : Int) + (inProgressRuns.length : Int)

/-- Modelled from the spec: a capacity reservation
`{effectiveTime, expirationTime, replicas}` appended by the webhook receiver
(the HRA source is not in the provided tree). -/
structure CapacityReservation where
  effectiveTime : Int
  expirationTime : Int
  replicas : Int
deriving DecidableEq, Repr

/-- Modelled from the spec: a reservation is active at `now` when
`effectiveTime ≤ now < expirationTime`. -/
def CapacityReservation.activeAt (r : CapacityReservation) (now : Int) : Bool :=
  decide (r.effectiveTime ≤ now) && decide (now < r.expirationTime)

/-- Modelled from the spec: `reservationSum := Σ r.replicas` over the
reservations active at `now`. -/
def reservationSum (rs : List CapacityReservation) (now : Int) : Int :=
  ((rs.filter (fun r => r.activeAt now)).map (fun r => r.replicas)).sum

/-- Integer clamping into `[lo, hi]`, as used by the desired-replica
computation. -/
def clampI (x lo hi : Int) : Int :=
  max lo (min x hi)

/-- The HRA status fields that the desired-replica computation reads and
writes: the previously written desired count and the time of the last
successful scale-out (absent on a fresh HRA). -/
structure HRAStatus where
  desiredReplicas : Int
  lastSuccessfulScaleOutTime : Option Int
deriving DecidableEq, Repr

/-- Modelled from the spec: `baseline := max(minReplicas, metricReplicas)`;
when no metrics are configured, `metricReplicas = minReplicas`, so the
baseline degenerates to `minReplicas`. -/
def baselineOf (minReplicas : Int) (metricReplicas : Option Int) : Int :=
  match metricReplicas with
  | none => minReplicas
  | some m => max minReplicas m

/-- Modelled from the spec:
`raw := clamp(baseline + reservationSum, effectiveMin, effectiveMax)`.
No scheduled override is involved in any claim, so the effective bounds are
`minReplicas` and `maxReplicas` themselves. -/
def rawDesired (minReplicas maxReplicas : Int) (metricReplicas : Option Int)
    (reservations : List CapacityReservation) (now : Int) : Int :=
  clampI (baselineOf minReplicas metricReplicas + reservationSum reservations now)
    minReplicas maxReplicas

/-- Outcome of one desired-replica reconcile: the status written back and the
optional requeue delay requested by the scale-down suppression. -/
structure ReconcileOutcome where
  status : HRAStatus
  requeueAfterSeconds : Option Int
deriving DecidableEq, Repr

/-- Modelled from the spec: scale-down suppression.  If
`raw < previousDesired` and `now − lastSuccessfulScaleOutTime` is under
`scaleDownDelaySecondsAfterScaleUp`, the previous desired count is held and
the reconcile is requeued after the remaining delay; otherwise `raw` is
written, and `lastSuccessfulScaleOutTime` is moved to `now` on a scale-up. -/
def applyScaleDownDelay (prev : HRAStatus) (delay raw now : Int) : ReconcileOutcome :=
  match prev.lastSuccessfulScaleOutTime with
  | some t =>
    if raw < prev.desiredReplicas ∧ now - t < delay then
      { status := prev, requeueAfterSeconds := some (delay - (now - t)) }
    else
      { status :=
          { desiredReplicas := raw
            lastSuccessfulScaleOutTime :=
              if prev.desiredReplicas < raw then some now else some t }
        requeueAfterSeconds := none }
  | none =>
    { status :=
        { desiredReplicas := raw
          lastSuccessfulScaleOutTime :=
            if prev.desiredReplicas < raw then some now else none }
      requeueAfterSeconds := none }

/-- Modelled from the spec: one full desired-replica computation of the HRA
reconciler — the clamped raw value followed by scale-down suppression. -/
def computeDesired (minReplicas maxReplicas delay : Int) (metricReplicas : Option Int)
    (reservations : List CapacityReservation) (prev : HRAStatus) (now : Int) :
    ReconcileOutcome :=
  applyScaleDownDelay prev delay
    (rawDesired minReplicas maxReplicas metricReplicas reservations now) now

/-- A sequence of reconciles, each supplying the raw desired value it computed
and the time at which it ran, threaded through the scale-down suppression. -/
def runSteps (delay : Int) (st : HRAStatus) (steps : List (Int × Int)) : HRAStatus :=
  match steps with
  | [] => st
  | (raw, now) :: rest => runSteps delay (applyScaleDownDelay st delay raw now).status rest

/-- The `CheckRunSpec` trigger fields: event types, a status, and a
repository allow-list. -/
structure CheckRunSpec where
  types : List String
  checkStatus : String
  repositories : List String
deriving DecidableEq, Repr

/-- Modelled from the spec: the tagged `eventMatcher` variants of a
`ScaleUpTrigger` (the webhook-receiver source is not in the provided tree). -/
inductive EventMatcher where
  | pullRequest (types branches : List String)
  | push (branches : List String)
  | checkRun (s : CheckRunSpec)
  | workflowJob
deriving DecidableEq, Repr

/-- A `ScaleUpTrigger`: an event matcher, a replica amount and a reservation
duration in seconds. -/
structure ScaleUpTrigger where
  matcher : EventMatcher
  amount : Int
  duration : Int
deriving DecidableEq, Repr

/-- The fields the webhook receiver derives from an inbound delivery:
event name, action, status, repository name, base branch and (for
workflow_job events) the requested job labels. -/
structure WebhookEvent where
  eventType : String
  action : String
  eventStatus : String
  repository : String
  refBranch : String
  jobLabels : List String
deriving DecidableEq, Repr

/-- Modelled from the spec: check_run trigger matching — the conditions are
ANDed (`types contains action` AND `status == status` AND
`repositories is empty OR contains repository`); an empty repository list
matches every repository. -/
def checkRunMatches (s : CheckRunSpec) (action status repo : String) : Bool :=
  s.types.contains action && (s.checkStatus == status) &&
    (s.repositories.isEmpty || s.repositories.contains repo)

/-- Modelled from the spec: the runner labels a workflow_job event is matched
against.  A template carrying custom registration labels exposes exactly
those; a template with no custom labels carries the implicit default
`self-hosted` label (the integration test scales a deployment with no custom
labels on a job requesting `[self-hosted]`). -/
def effectiveRunnerLabels (templateLabels : List String) : List String :=
  if templateLabels.isEmpty then ["self-hosted"] else templateLabels

/-- Modelled from the spec: evaluation of the `eventMatcher` of one trigger
against the derived event fields.  A `WorkflowJob` trigger matches a queued
workflow_job event whose requested labels are all carried by the target
effective runner labels of the target template. -/
def matchesTrigger (templateLabels : List String) (m : EventMatcher)
    (e : WebhookEvent) : Bool :=
  match m with
  | .pullRequest types branches =>
    (e.eventType == "pull_request") && types.contains e.action &&
      branches.contains e.refBranch
  | .push branches =>
    (e.eventType == "push") && branches.contains e.refBranch
  | .checkRun s =>
    (e.eventType == "check_run") && checkRunMatches s e.action e.eventStatus e.repository
  | .workflowJob =>
    (e.eventType == "workflow_job") && (e.action == "queued") &&
      e.jobLabels.all (fun l => (effectiveRunnerLabels templateLabels).contains l)

/-- Modelled from the spec: on an inbound event the receiver appends, for
each matching trigger of the HRA, exactly one reservation
`{effectiveTime: now, expirationTime: now + duration, replicas: amount}`. -/
def appendReservations (templateLabels : List String) (triggers : List ScaleUpTrigger)
    (e : WebhookEvent) (now : Int) (res : List CapacityReservation) :
    List CapacityReservation :=
  res ++ (triggers.filter (fun tr => matchesTrigger templateLabels tr.matcher e)).map
    (fun tr => ⟨now, now + tr.duration, tr.amount⟩)

/-!
## RunnerReplicaSet admission webhook (translated from the Go source)

`Validate` runs three checks on the embedded runner template spec —
`ValidateRepository`, `ValidateWorkVolumeClaimTemplate`,
`ValidateIsServiceAccountNameSet` — collecting a `field.Invalid` error per
failing check, each naming the offending field path, and returns an
`Invalid` error exactly when the list is non-empty.  The bodies of the three
template-spec checks are not in the provided tree; `ValidateRepository` is
modelled from the rule of the spec that exactly one of
`{enterprise, organization, repository}` is non-empty, and the other two are
kept abstract as boolean fields of the template spec.
-/

/-- The runner template spec fields consulted by the admission webhook.  The
scope fields are the strings from `RunnerConfig`; the work-volume and
service-account checks, whose Go bodies are not in the provided tree, are
abstracted as the booleans recording whether they pass. -/
structure RunnerTemplateSpec where
  enterprise : String
  organization : String
  repository : String
  workVolumeClaimTemplateOk : Bool
  serviceAccountNameOk : Bool
deriving DecidableEq, Repr

/-- A RunnerReplicaSet as seen by the admission webhook: the replica count,
the label selector, the template labels and the template spec. -/
structure RunnerReplicaSet where
  replicas : Int
  selector : List (String × String)
  templateLabels : List (String × String)
  templateSpec : RunnerTemplateSpec
deriving DecidableEq, Repr

/-- Modelled from the spec: `ValidateRepository` of the runner spec — exactly
one of `{enterprise, organization, repository}` must be non-empty (its Go
body is not in the provided tree). -/
def validateRepositoryOk (s : RunnerTemplateSpec) : Bool :=
  (if s.enterprise ≠ "" then 1 else 0) + (if s.organization ≠ "" then 1 else 0) +
      (if s.repository ≠ "" then 1 else 0) == 1

/-- A `field.Invalid` error recorded by the webhook, identified by the field
path it names. -/
structure FieldError where
  fieldPath : String
deriving DecidableEq, Repr

/-- `RunnerReplicaSet.Validate`, translated from the Go source: run the three
template-spec checks in order, appending a field error naming the offending
field for each failure; return the error list when non-empty (the `Invalid`
admission error), `none` when the spec is accepted. -/
def Validate (r : RunnerReplicaSet) : Option (List FieldError) :=
  let errList : List FieldError :=
    (if validateRepositoryOk r.templateSpec then []
      else [⟨"spec.template.spec.repository"⟩]) ++
    (if r.templateSpec.workVolumeClaimTemplateOk then []
      else [⟨"spec.template.spec.workVolumeClaimTemplate"⟩]) ++
    (if r.templateSpec.serviceAccountNameOk then []
      else [⟨"spec.template.spec.serviceAccountName"⟩])
  if errList.length > 0 then some errList else none

/-- `RunnerReplicaSet.ValidateCreate`, translated from the Go source: it
delegates to `Validate`. -/
def ValidateCreate (r : RunnerReplicaSet) : Option (List FieldError) :=
  Validate r

/-- `RunnerReplicaSet.ValidateUpdate`, translated from the Go source: it
ignores the old object and delegates to `Validate`. -/
def ValidateUpdate (_old r : RunnerReplicaSet) : Option (List FieldError) :=
  Validate r

/-- `RunnerReplicaSet.ValidateDelete`, translated from the Go source: it
returns `nil` unconditionally. -/
def ValidateDelete (_r : RunnerReplicaSet) : Option (List FieldError) :=
  none

/-!
## Controller bootstrap cache duration (translated from the Go source)

`main` adjusts the `github-api-cache-duration` flag before handing it to the
HorizontalRunnerAutoscaler reconciler: a zero value is replaced by
`syncPeriod − 10s`, and a negative result (or a negative user-supplied
value) is clamped to zero.  Durations are in seconds.
-/

/-- The GitHub API cache duration handed to the HRA reconciler, translated
from `main`: if the flag is zero it becomes `syncPeriod − 10`, and any
negative value is then clamped to zero. -/
def effectiveCacheDuration (gitHubAPICacheDuration syncPeriod : Int) : Int :=
  let d := if gitHubAPICacheDuration = 0 then syncPeriod - 10 else gitHubAPICacheDuration
  if d < 0 then 0 else d

/-- Follows the words of the spec (not the Go source): the claimed admission
rule that the label selector matches the template labels — every selector
pair must appear among the template labels.  Used to compare the claimed
validation rules with the `Validate` translated from the source. -/
def selectorMatchesSpec (selector labels : List (String × String)) : Bool :=
  selector.all (fun kv => labels.contains kv)

/-- A RunnerReplicaSet whose template spec passes all three webhook checks
but whose replica count is negative and whose selector does not match the
template labels. -/
def negativeReplicasRRS : RunnerReplicaSet :=
  { replicas := -1
    selector := [("foo", "bar")]
    templateLabels := []
    templateSpec :=
      { enterprise := ""
        organization := ""
        repository := "test/valid"
        workVolumeClaimTemplateOk := true
        serviceAccountNameOk := true } }

/-- A RunnerReplicaSet whose template spec sets none of the three target
scopes, so `Validate` rejects it. -/
def emptyScopeRRS : RunnerReplicaSet :=
  { replicas := 1
    selector := [("foo", "bar")]
    templateLabels := [("foo", "bar")]
    templateSpec :=
      { enterprise := ""
        organization := ""
        repository := ""
        workVolumeClaimTemplateOk := true
        serviceAccountNameOk := true } }

/-!
## Helper lemmas
-/

theorem reservationSum_append (rs ss : List CapacityReservation) (now : Int) :
    reservationSum (rs ++ ss) now = reservationSum rs now + reservationSum ss now := by
  simp [reservationSum, List.filter_append]

theorem reservationSum_singleton (r : CapacityReservation) (now : Int) :
    reservationSum [r] now = if r.activeAt now then r.replicas else 0 := by
  cases h : r.activeAt now <;> simp [reservationSum, h]

theorem appendReservations_singleton (labels : List String) (t : ScaleUpTrigger)
    (e : WebhookEvent) (now : Int) (res : List CapacityReservation) :
    appendReservations labels [t] e now res =
      res ++ (if matchesTrigger labels t.matcher e then
        [⟨now, now + t.duration, t.amount⟩] else []) := by
  cases h : matchesTrigger labels t.matcher e <;> simp [appendReservations, h]

/-!
## Claim theorems
-/

/-- C9: `ValidateDelete` returns nil for every receiver value — deleting a
RunnerReplicaSet is never rejected by the validation webhook, even for an
object whose spec fails the create/update validation (here one with none of
the three target scopes set). -/
theorem validateDelete_never_rejects :
    (∀ r : RunnerReplicaSet, ValidateDelete r = none) ∧
    (Validate emptyScopeRRS ≠ none ∧ ValidateDelete emptyScopeRRS = none) :=
  ⟨fun _ => rfl, by decide, rfl⟩

/-- C10: the GitHub API cache duration handed to the HRA reconciler is never
negative; a zero flag value is replaced by `syncPeriod − 10` seconds, a
negative result or a negative user-supplied value is clamped to `0`, and a
sync period under ten seconds therefore disables caching. -/
theorem cacheDuration_never_negative (g sp : Int) :
    0 ≤ effectiveCacheDuration g sp ∧
    (g = 0 → effectiveCacheDuration g sp =
      (if sp - 10 < 0 then 0 else sp - 10)) ∧
    (g < 0 → effectiveCacheDuration g sp = 0) ∧
    (g = 0 → sp < 10 → effectiveCacheDuration g sp = 0) := by
  unfold effectiveCacheDuration
  split_ifs <;> simp_all <;> omega

theorem cacheDuration_never_negative_witness :
    effectiveCacheDuration 0 5 = 0 :=
  (cacheDuration_never_negative 0 5).2.2.2 rfl (by decide)

/-- C7: with no metrics configured and no active reservations the raw
desired count equals `max(minReplicas, 0)` clamped to `maxReplicas`; in
particular a fresh HRA with `minReplicas = 2`, `maxReplicas = 5` and a nil
metric list over a deployment at one replica computes a desired count of
two. -/
theorem no_metrics_desired_equals_min (minR maxR now : Int)
    (h0 : 0 ≤ minR) (hmm : minR ≤ maxR) :
    rawDesired minR maxR none [] now = min (max minR 0) maxR ∧
    (computeDesired 2 5 1 none [] ⟨1, none⟩ now).status.desiredReplicas = 2 := by
  constructor
  · simp only [rawDesired, baselineOf, reservationSum, List.filter_nil, List.map_nil,
      List.sum_nil, clampI]
    omega
  · simp only [computeDesired, applyScaleDownDelay, rawDesired, baselineOf,
      reservationSum, List.filter_nil, List.map_nil, List.sum_nil, clampI]
    norm_num

theorem no_metrics_desired_equals_min_witness :
    rawDesired 2 5 none [] 0 = min (max 2 0) 5 ∧
    (computeDesired 2 5 1 none [] ⟨1, none⟩ 0).status.desiredReplicas = 2 :=
  no_metrics_desired_equals_min 2 5 0 (by decide) (by decide)

/-- The metric value the reconciler derives from the fake Provider of the
integration test: the runs served under the `queued` status key plus those
served under the `in_progress` status key. -/
def for3ReplicasMetric : Int :=
  totalQueuedAndInProgressMetric (for3ReplicasHandler.list (some "queued"))
    (for3ReplicasHandler.list (some "in_progress"))

/-- C2 counterexample: in the scenario of the integration test (HRA with
`minReplicas = 1`, `maxReplicas = 5`, queued-and-in-progress metric, fresh
status over a deployment at one replica), the combined fixture body does
contain two queued and two in-progress runs, yet the reconciler consumes the
per-status listings — two queued runs and one in-progress run — so it
computes a desired count of three, not four. -/
theorem queuedMetric_scenario_not_four :
    ((workflowRunsFor3Replicas.filter (fun r => r.runStatus == "queued")).length = 2 ∧
     (workflowRunsFor3Replicas.filter (fun r => r.runStatus == "in_progress")).length = 2) ∧
    (computeDesired 1 5 1 (some for3ReplicasMetric) [] ⟨1, none⟩ 0).status.desiredReplicas = 3 ∧
    (computeDesired 1 5 1 (some for3ReplicasMetric) [] ⟨1, none⟩ 0).status.desiredReplicas ≠ 4 := by
  decide

/-- C2 (amended): in the scenario of the integration test the queued listing
of the Provider holds two runs and the in-progress listing holds one, so
`metricReplicas = 2 + 1 = 3` — the count of runs in the queued listing plus
the count in the in-progress listing — and the reconciler drives the active
RunnerReplicaSet to three replicas within one reconcile. -/
theorem queuedMetric_scenario_replicas_three :
    (for3ReplicasHandler.list (some "queued")).length = 2 ∧
    (for3ReplicasHandler.list (some "in_progress")).length = 1 ∧
    for3ReplicasMetric =
      ((for3ReplicasHandler.list (some "queued")).length : Int) +
        ((for3ReplicasHandler.list (some "in_progress")).length : Int) ∧
    for3ReplicasMetric = 3 ∧
    (computeDesired 1 5 1 (some for3ReplicasMetric) [] ⟨1, none⟩ 0).status.desiredReplicas = 3 := by
  decide

/-- The check_run trigger of the repository-filter scenario:
`types = [created]`, `status = pending`,
`repositories = [valid, foo, bar]`, amount one, duration one minute. -/
def checkRunRepoFilterTrigger : ScaleUpTrigger :=
  { matcher := .checkRun
      { types := ["created"], checkStatus := "pending",
        repositories := ["valid", "foo", "bar"] }
    amount := 1
    duration := 60 }

/-- A check_run event with action `created` and status `pending` for the
given repository, as sent by `SendOrgCheckRunEvent`. -/
def checkRunEvent (repo : String) : WebhookEvent :=
  { eventType := "check_run", action := "created", eventStatus := "pending",
    repository := repo, refBranch := "", jobLabels := [] }

/-- C5: with the trigger `CheckRun{types=[created], status=pending,
repositories=[valid, foo, bar]}`, the matching event for repository `valid`
appends exactly one reservation, advancing the active reservation sum by the
trigger amount, while the same event for repository `example` appends none;
the conditions of a check_run trigger are ANDed, and an empty repository
list matches every repository. -/
theorem checkRun_repository_filter :
    (∀ (res : List CapacityReservation) (now : Int),
      appendReservations [] [checkRunRepoFilterTrigger] (checkRunEvent "valid") now res =
        res ++ [⟨now, now + 60, 1⟩]) ∧
    (∀ (res : List CapacityReservation) (now : Int),
      reservationSum
        (appendReservations [] [checkRunRepoFilterTrigger] (checkRunEvent "valid") now res)
        now = reservationSum res now + 1) ∧
    (∀ (res : List CapacityReservation) (now : Int),
      appendReservations [] [checkRunRepoFilterTrigger] (checkRunEvent "example") now res =
        res) ∧
    (∀ (s : CheckRunSpec) (action status repo : String),
      checkRunMatches s action status repo = true ↔
        (action ∈ s.types ∧ s.checkStatus = status ∧
          (s.repositories = [] ∨ repo ∈ s.repositories))) ∧
    (∀ repo : String,
      checkRunMatches ⟨["created"], "pending", []⟩ "created" "pending" repo = true) := by
  have hmatch :
      matchesTrigger [] checkRunRepoFilterTrigger.matcher (checkRunEvent "valid") = true := by
    decide
  have hnomatch :
      matchesTrigger [] checkRunRepoFilterTrigger.matcher (checkRunEvent "example") = false := by
    decide
  have happ : ∀ (res : List CapacityReservation) (now : Int),
      appendReservations [] [checkRunRepoFilterTrigger] (checkRunEvent "valid") now res =
        res ++ [⟨now, now + 60, 1⟩] := by
    intro res now
    rw [appendReservations_singleton, hmatch]
    rfl
  refine ⟨happ, ?_, ?_, ?_, ?_⟩
  · intro res now
    rw [happ res now, reservationSum_append, reservationSum_singleton]
    have hact : CapacityReservation.activeAt ⟨now, now + 60, 1⟩ now = true := by
      simp only [CapacityReservation.activeAt, Bool.and_eq_true, decide_eq_true_eq]
      omega
    rw [hact]
    simp
  · intro res now
    rw [appendReservations_singleton, hnomatch]
    simp
  · intro s action status repo
    simp [checkRunMatches]
    tauto
  · intro repo
    rfl

/-- A webhook scale-up trigger with the empty `WorkflowJob{}` matcher,
amount one and a one-minute duration. -/
def workflowJobTrigger : ScaleUpTrigger :=
  { matcher := .workflowJob, amount := 1, duration := 60 }

/-- A `workflow_job` event with the queued action and the given requested
job labels, as sent by `SendWorkflowJobEvent`. -/
def workflowJobEvent (repo : String) (labels : List String) : WebhookEvent :=
  { eventType := "workflow_job", action := "queued", eventStatus := "queued",
    repository := repo, refBranch := "", jobLabels := labels }

/-- C6: against a deployment whose template carries the custom label
`custom-label`, a queued workflow_job event with job labels `[self-hosted]`
matches no trigger and appends no reservation, while one with job labels
`[custom-label]` matches and appends exactly one reservation. -/
theorem workflowJob_label_filter :
    matchesTrigger ["custom-label"] EventMatcher.workflowJob
        (workflowJobEvent "valid" ["self-hosted"]) = false ∧
    (∀ (res : List CapacityReservation) (now : Int),
      appendReservations ["custom-label"] [workflowJobTrigger]
        (workflowJobEvent "valid" ["self-hosted"]) now res = res) ∧
    matchesTrigger ["custom-label"] EventMatcher.workflowJob
        (workflowJobEvent "valid" ["custom-label"]) = true ∧
    (∀ (res : List CapacityReservation) (now : Int),
      appendReservations ["custom-label"] [workflowJobTrigger]
        (workflowJobEvent "valid" ["custom-label"]) now res =
          res ++ [⟨now, now + 60, 1⟩]) := by
  refine ⟨by decide, ?_, by decide, ?_⟩
  · intro res now
    rw [appendReservations_singleton]
    have h : matchesTrigger ["custom-label"] workflowJobTrigger.matcher
        (workflowJobEvent "valid" ["self-hosted"]) = false := by decide
    rw [h]
    simp
  · intro res now
    rw [appendReservations_singleton]
    have h : matchesTrigger ["custom-label"] workflowJobTrigger.matcher
        (workflowJobEvent "valid" ["custom-label"]) = true := by decide
    rw [h]
    rfl

/-- C8 counterexample: the RunnerReplicaSet admission webhook accepts a
create whose replica count is negative and whose selector does not match the
template labels — `Validate` consults only the embedded template spec, so
the claimed `replicas ≥ 0`, `minReplicas ≤ maxReplicas` and selector rules
are not enforced on RunnerReplicaSet writes. -/
theorem validate_accepts_negative_replicas :
    ValidateCreate negativeReplicasRRS = none ∧
    negativeReplicasRRS.replicas < 0 ∧
    selectorMatchesSpec negativeReplicasRRS.selector
      negativeReplicasRRS.templateLabels = false := by
  decide

/-- C8 (amended): on every RunnerReplicaSet create or update the admission
webhook validates only the embedded runner template spec — the target-scope
rule (exactly one of enterprise, organization, repository non-empty, via
`ValidateRepository`), the work-volume claim template and the service
account name — and rejects a violating write with an Invalid error whose
error list names the offending field; replica counts and selectors are not
examined. -/
theorem validate_checks_template_spec_only (r : RunnerReplicaSet) :
    (ValidateCreate r = none ↔
      (validateRepositoryOk r.templateSpec = true ∧
        r.templateSpec.workVolumeClaimTemplateOk = true ∧
        r.templateSpec.serviceAccountNameOk = true)) ∧
    (validateRepositoryOk r.templateSpec = false →
      ∃ errs, ValidateCreate r = some errs ∧
        FieldError.mk "spec.template.spec.repository" ∈ errs) ∧
    (r.templateSpec.workVolumeClaimTemplateOk = false →
      ∃ errs, ValidateCreate r = some errs ∧
        FieldError.mk "spec.template.spec.workVolumeClaimTemplate" ∈ errs) ∧
    (r.templateSpec.serviceAccountNameOk = false →
      ∃ errs, ValidateCreate r = some errs ∧
        FieldError.mk "spec.template.spec.serviceAccountName" ∈ errs) := by
  cases hv : validateRepositoryOk r.templateSpec <;>
    cases hw : r.templateSpec.workVolumeClaimTemplateOk <;>
      cases hs : r.templateSpec.serviceAccountNameOk <;>
        simp [ValidateCreate, Validate, hv, hw, hs]

theorem validate_checks_template_spec_only_witness :
    ∃ errs, ValidateCreate emptyScopeRRS = some errs ∧
      FieldError.mk "spec.template.spec.repository" ∈ errs :=
  (validate_checks_template_spec_only emptyScopeRRS).2.1 (by decide)

/-- C1: whenever the previously written status is consistent
(`minReplicas ≤ previousDesired ≤ maxReplicas`), the desired count written
by the next reconcile again satisfies
`minReplicas ≤ desiredReplicas ≤ maxReplicas`; and when the computed
desired count already equals `maxReplicas`, appending one further
reservation of non-negative amount leaves the computed count at
`maxReplicas`. -/
theorem hra_desiredReplicas_within_bounds
    (minR maxR delay now : Int) (metric : Option Int)
    (res : List CapacityReservation) (prev : HRAStatus) (r : CapacityReservation)
    (hminmax : minR ≤ maxR) (hlo : minR ≤ prev.desiredReplicas)
    (hhi : prev.desiredReplicas ≤ maxR) (hamt : 0 ≤ r.replicas) :
    (minR ≤ (computeDesired minR maxR delay metric res prev now).status.desiredReplicas ∧
      (computeDesired minR maxR delay metric res prev now).status.desiredReplicas ≤ maxR) ∧
    ((computeDesired minR maxR delay metric res prev now).status.desiredReplicas = maxR →
      (computeDesired minR maxR delay metric (res ++ [r]) prev now).status.desiredReplicas
        = maxR) := by
  obtain ⟨pd, plast⟩ := prev
  simp only [HRAStatus.desiredReplicas] at hlo hhi
  have hb1 : minR ≤ rawDesired minR maxR metric res now := le_max_left _ _
  have hb2 : rawDesired minR maxR metric res now ≤ maxR := by
    unfold rawDesired clampI
    omega
  have hb4 : rawDesired minR maxR metric (res ++ [r]) now ≤ maxR := by
    unfold rawDesired clampI
    omega
  have hb3 : rawDesired minR maxR metric res now ≤
      rawDesired minR maxR metric (res ++ [r]) now := by
    have hs := reservationSum_append res [r] now
    have h1 := reservationSum_singleton r now
    unfold rawDesired clampI
    rw [hs, h1]
    split_ifs <;> omega
  cases plast with
  | none =>
    simp only [computeDesired, applyScaleDownDelay]
    exact ⟨⟨hb1, hb2⟩, fun h => by omega⟩
  | some t =>
    simp only [computeDesired, applyScaleDownDelay]
    split_ifs with h1 h2 h2 <;> simp only [HRAStatus.desiredReplicas] <;>
      constructor <;> omega

theorem hra_desiredReplicas_within_bounds_witness :
    (1 ≤ (computeDesired 1 5 60 none [] ⟨1, none⟩ 0).status.desiredReplicas ∧
      (computeDesired 1 5 60 none [] ⟨1, none⟩ 0).status.desiredReplicas ≤ 5) ∧
    ((computeDesired 1 5 60 none [] ⟨1, none⟩ 0).status.desiredReplicas = 5 →
      (computeDesired 1 5 60 none ([] ++ [⟨0, 60, 1⟩]) ⟨1, none⟩ 0).status.desiredReplicas
        = 5) :=
  hra_desiredReplicas_within_bounds 1 5 60 0 none [] ⟨1, none⟩ ⟨0, 60, 1⟩
    (by decide) (by decide) (by decide) (by decide)

/-- C3: two reservations of amount `a`, both active, appended by two
non-duplicate matching events contribute additively: while both are active
the raw desired count equals the count before the events plus `2·a`,
subject to the min/max clamp, and is the same whichever order the two
reservations were appended in. -/
theorem reservations_additive_order_insensitive
    (minR maxR a now : Int) (metric : Option Int) (res : List CapacityReservation)
    (r1 r2 : CapacityReservation)
    (h1 : r1.replicas = a) (h2 : r2.replicas = a)
    (h1a : r1.activeAt now = true) (h2a : r2.activeAt now = true)
    (hlo : minR ≤ baselineOf minR metric + reservationSum res now)
    (hhi : baselineOf minR metric + reservationSum res now ≤ maxR) :
    rawDesired minR maxR metric (res ++ [r1, r2]) now
        = clampI (rawDesired minR maxR metric res now + 2 * a) minR maxR ∧
    rawDesired minR maxR metric (res ++ [r1, r2]) now
        = rawDesired minR maxR metric (res ++ [r2, r1]) now := by
  have hpair : ∀ x y : CapacityReservation, x.activeAt now = true →
      y.activeAt now = true →
      reservationSum [x, y] now = x.replicas + y.replicas := by
    intro x y hx hy
    simp [reservationSum, hx, hy]
  have hsum12 : reservationSum (res ++ [r1, r2]) now
      = reservationSum res now + 2 * a := by
    rw [reservationSum_append, hpair r1 r2 h1a h2a, h1, h2]
    ring
  have hsum21 : reservationSum (res ++ [r2, r1]) now
      = reservationSum res now + 2 * a := by
    rw [reservationSum_append, hpair r2 r1 h2a h1a, h1, h2]
    ring
  have hbefore : rawDesired minR maxR metric res now
      = baselineOf minR metric + reservationSum res now := by
    unfold rawDesired clampI
    omega
  constructor
  · rw [hbefore]
    unfold rawDesired
    rw [hsum12]
    congr 1
    ring
  · unfold rawDesired
    rw [hsum12, hsum21]

theorem reservations_additive_order_insensitive_witness :
    rawDesired 1 5 none ([] ++ [⟨0, 60, 1⟩, ⟨0, 30, 1⟩]) 0
        = clampI (rawDesired 1 5 none [] 0 + 2 * 1) 1 5 ∧
    rawDesired 1 5 none ([] ++ [⟨0, 60, 1⟩, ⟨0, 30, 1⟩]) 0
        = rawDesired 1 5 none ([] ++ [⟨0, 30, 1⟩, ⟨0, 60, 1⟩]) 0 :=
  reservations_additive_order_insensitive 1 5 1 0 none [] ⟨0, 60, 1⟩ ⟨0, 30, 1⟩
    rfl rfl (by decide) (by decide) (by decide) (by decide)

/-- Auxiliary invariant for the scale-down delay: starting from a status
whose desired count is at least `d` and whose last scale-out time is at
least `t`, any sequence of reconciles run strictly inside the window
`[t, t + delay)` keeps the desired count at least `d`. -/
theorem runSteps_desired_lower_bound (delay d t : Int) :
    ∀ (steps : List (Int × Int)) (st : HRAStatus),
      d ≤ st.desiredReplicas →
      (∃ t0, st.lastSuccessfulScaleOutTime = some t0 ∧ t ≤ t0) →
      (∀ p ∈ steps, t ≤ p.2 ∧ p.2 < t + delay) →
      d ≤ (runSteps delay st steps).desiredReplicas := by
  intro steps
  induction steps with
  | nil =>
    intro st hd _ _
    simpa [runSteps] using hd
  | cons p rest ih =>
    intro st hd hex hsteps
    obtain ⟨raw, now⟩ := p
    obtain ⟨t0, hlast, htt0⟩ := hex
    obtain ⟨sd, slast⟩ := st
    simp only [HRAStatus.desiredReplicas] at hd
    simp only [HRAStatus.lastSuccessfulScaleOutTime] at hlast
    subst hlast
    have hnow := hsteps (raw, now) (List.mem_cons_self _ _)
    simp only at hnow
    rw [runSteps]
    apply ih
    · simp only [applyScaleDownDelay]
      split_ifs with h h2 <;> dsimp only <;> omega
    · simp only [applyScaleDownDelay]
      split_ifs with h h2
      · exact ⟨t0, rfl, htt0⟩
      · exact ⟨now, rfl, hnow.1⟩
      · exact ⟨t0, rfl, htt0⟩
    · intro q hq
      exact hsteps q (List.mem_cons_of_mem _ hq)

/-- C4: when the newly computed raw desired count is below the previous one
and the scale-down delay since the last successful scale-out has not yet
elapsed, the reconcile holds the previous desired count and requeues after
the remaining delay; consequently, starting from a status scaled out to `d`
at time `t`, the desired count never drops below `d` at any reconcile in
the following `delay` seconds. -/
theorem scaleDownDelay_holds_previous_desired
    (delay d t raw now : Int) (prev : HRAStatus) (steps : List (Int × Int))
    (hlast : prev.lastSuccessfulScaleOutTime = some t) :
    (raw < prev.desiredReplicas → now - t < delay →
      (applyScaleDownDelay prev delay raw now).status.desiredReplicas
          = prev.desiredReplicas ∧
        (applyScaleDownDelay prev delay raw now).requeueAfterSeconds
          = some (delay - (now - t))) ∧
    (prev.desiredReplicas = d → (∀ p ∈ steps, t ≤ p.2 ∧ p.2 < t + delay) →
      d ≤ (runSteps delay prev steps).desiredReplicas) := by
  constructor
  · intro hraw hwin
    obtain ⟨pd, plast⟩ := prev
    simp only [HRAStatus.lastSuccessfulScaleOutTime] at hlast
    simp only [HRAStatus.desiredReplicas] at hraw
    subst hlast
    simp only [applyScaleDownDelay]
    rw [if_pos ⟨hraw, hwin⟩]
    exact ⟨rfl, rfl⟩
  · intro hd hsteps
    exact runSteps_desired_lower_bound delay d t steps prev (le_of_eq hd.symm)
      ⟨t, hlast, le_refl t⟩ hsteps

theorem scaleDownDelay_holds_previous_desired_witness :
    ((applyScaleDownDelay ⟨3, some 0⟩ 60 1 10).status.desiredReplicas = 3 ∧
      (applyScaleDownDelay ⟨3, some 0⟩ 60 1 10).requeueAfterSeconds = some 50) ∧
    3 ≤ (runSteps 60 ⟨3, some 0⟩ [(1, 10), (2, 30)]).desiredReplicas := by
  have h := scaleDownDelay_holds_previous_desired 60 3 0 1 10 ⟨3, some 0⟩
    [(1, 10), (2, 30)] rfl
  exact ⟨h.1 (by decide) (by decide), h.2 rfl (by decide)⟩

end ARC
